import Mathlib

/-!
Verification development for the Acts propagation core: the straight-line
stepper state, its coordinate/covariance-transport engine, and the
Measurement/ParameterSet residual and equality operations.

Scalars (C++ double) are modelled as real numbers. Eigen vectors and
matrices become functions out of Fin n and Mathlib matrices. The opaque
context tokens (GeometryContext, MagneticFieldContext) are passed through
unmodified by every modelled operation and never inspected, so they are
elided from the embedding.

Definitions translated from src/Core/src/Propagator/StraightLineStepper.cpp
and src/Core/include/Acts/EventData/Measurement.hpp keep their source names.
Components of the repository that are declared and tested in src/ but whose
definitions are not present there (the stepper header with State,
ConstrainedStep, step, setStepSize/releaseStepSize and the default
arguments; detail::CovarianceEngine; detail::coordinate_transformations;
ParameterSet.hpp) are modelled from the specification, as marked by their
doc comments.
-/

namespace ActsSpec

noncomputable section

/-- Three-component real vector, the model of Acts::Vector3D (Eigen). -/
@[ext]
structure Vec3 where
  x : ℝ
  y : ℝ
  z : ℝ

instance : Zero Vec3 := ⟨⟨0, 0, 0⟩⟩

instance : Add Vec3 := ⟨fun a b => ⟨a.x + b.x, a.y + b.y, a.z + b.z⟩⟩

instance : SMul ℝ Vec3 := ⟨fun c v => ⟨c * v.x, c * v.y, c * v.z⟩⟩

theorem Vec3.zero_def : (0 : Vec3) = ⟨0, 0, 0⟩ := rfl

theorem Vec3.smul_def (c : ℝ) (v : Vec3) : c • v = ⟨c * v.x, c * v.y, c * v.z⟩ := rfl

/-- Squared Euclidean norm of a 3-vector. -/
def Vec3.normSq (v : Vec3) : ℝ := v.x ^ 2 + v.y ^ 2 + v.z ^ 2

/-- Euclidean norm, the model of Eigen's .norm(). -/
def Vec3.norm (v : Vec3) : ℝ := Real.sqrt v.normSq

/-- Model of Eigen's .normalized(): the vector divided by its norm. -/
def Vec3.normalized (v : Vec3) : Vec3 := (1 / v.norm) • v

/-- Bound parameter vector: (loc0, loc1, phi, theta, q/p, time). -/
abbrev BoundVector := Fin 6 → ℝ

/-- Free parameter vector: (x, y, z, t, dx, dy, dz, q/p). -/
abbrev FreeVector := Fin 8 → ℝ

abbrev BoundMatrix := Matrix (Fin 6) (Fin 6) ℝ

abbrev BoundSymMatrix := Matrix (Fin 6) (Fin 6) ℝ

abbrev FreeMatrix := Matrix (Fin 8) (Fin 8) ℝ

abbrev BoundToFreeMatrix := Matrix (Fin 8) (Fin 6) ℝ

abbrev FreeToBoundMatrix := Matrix (Fin 6) (Fin 8) ℝ

/-- Position components of a free vector. -/
def freePosition (v : FreeVector) : Vec3 := ⟨v 0, v 1, v 2⟩

/-- Direction components of a free vector. -/
def freeDirection (v : FreeVector) : Vec3 := ⟨v 4, v 5, v 6⟩

/-- Navigation direction: the sign with which the trajectory advances. -/
inductive NavigationDirection where
  | forward
  | backward
deriving DecidableEq

/-- Numeric value of a navigation direction, +1 for forward, -1 for backward. -/
def NavigationDirection.toReal : NavigationDirection → ℝ
  | .forward => 1
  | .backward => -1

/-- Modelled from the spec: the largest representable double magnitude
(std::numeric_limits of double ::max(), used by the missing stepper header
as the unconstrained, tolerance-only step-size bound). Its exact value is
the IEEE-754 binary64 maximum. -/
def doubleMax : ℝ := 2 ^ 1024 - 2 ^ 971

theorem doubleMax_pos : 0 < doubleMax := by
  have h : (2 : ℝ) ^ 971 < 2 ^ 1024 := by
    exact pow_lt_pow_right₀ one_lt_two (by norm_num)
  simpa [doubleMax, sub_pos] using h

/-- Constraint tiers of the step size, from the missing ConstrainedStep
declaration: accuracy, actor (navigation), aborter (target) and user. -/
inductive StepType where
  | accuracy
  | actor
  | aborter
  | user
deriving DecidableEq

/-- Modelled from the spec: the ConstrainedStep record of the missing
stepper header. Constraints are tracked in independent tiers together with
the direction sign fixed at construction; the effective step size is the
tightest active bound. Behaviour is pinned by the assertions of
src/Tests/UnitTests/Core/Propagator/StraightLineStepperTests.cpp. -/
structure ConstrainedStep where
  accuracy : ℝ
  actor : ℝ
  aborter : ℝ
  user : ℝ
  direction : NavigationDirection

namespace ConstrainedStep

/-- Read one tier. -/
def value (cs : ConstrainedStep) : StepType → ℝ
  | .accuracy => cs.accuracy
  | .actor => cs.actor
  | .aborter => cs.aborter
  | .user => cs.user

/-- Overwrite one tier. -/
def setValue (cs : ConstrainedStep) : StepType → ℝ → ConstrainedStep
  | .accuracy, v => { cs with accuracy := v }
  | .actor, v => { cs with actor := v }
  | .aborter, v => { cs with aborter := v }
  | .user, v => { cs with user := v }

/-- Smallest of the four tier values. -/
def minValue (cs : ConstrainedStep) : ℝ :=
  min (min (min cs.accuracy cs.actor) cs.aborter) cs.user

/-- Largest of the four tier values. -/
def maxValue (cs : ConstrainedStep) : ℝ :=
  max (max (max cs.accuracy cs.actor) cs.aborter) cs.user

/-- Modelled from the spec: the cast to double of a ConstrainedStep, the
tightest active bound given the direction (the smallest value when going
forward, the largest when going backward). -/
def effective (cs : ConstrainedStep) : ℝ :=
  match cs.direction with
  | .forward => cs.minValue
  | .backward => cs.maxValue

/-- Modelled from the spec: releasing one tier relaxes it to the signed
largest value available among the tiers. -/
def release (cs : ConstrainedStep) (t : StepType) : ConstrainedStep :=
  cs.setValue t
    (match cs.direction with
      | .forward => cs.maxValue
      | .backward => cs.minValue)

/-- Modelled from the spec: updating one tier tightens it monotonically,
keeping the current value when it is already the stricter (smaller
magnitude) bound; an update may first release the tier. -/
def updateValue (cs : ConstrainedStep) (v : ℝ) (t : StepType) (releaseStep : Bool) :
    ConstrainedStep :=
  let cs1 := if releaseStep then cs.release t else cs
  let c := cs1.value t
  cs1.setValue t (if c * c < v * v then c else v)

/-- Modelled from the spec: the ConstrainedStep constructor from a signed
value. The direction is the sign of the value; the accuracy, actor and
aborter tiers start at the signed unconstrained bound and the user tier
records the given value. -/
def ofValue (v : ℝ) : ConstrainedStep :=
  let d : NavigationDirection := if 0 < v then .forward else .backward
  { accuracy := d.toReal * doubleMax
    actor := d.toReal * doubleMax
    aborter := d.toReal * doubleMax
    user := v
    direction := d }

end ConstrainedStep

/-- Modelled from the spec: the stepper State record of the missing
StraightLineStepper header, the mutable record of kinematics, covariance
and transport Jacobians of one trajectory. Field names follow the ones the
unit tests read. -/
structure State where
  pos : Vec3
  dir : Vec3
  p : ℝ
  q : ℝ
  t : ℝ
  navDir : NavigationDirection
  stepSize : ConstrainedStep
  previousStepSize : ℝ
  tolerance : ℝ
  pathAccumulated : ℝ
  covTransport : Bool
  cov : BoundSymMatrix
  jacobian : BoundMatrix
  jacToGlobal : BoundToFreeMatrix
  jacTransport : FreeMatrix
  derivative : FreeVector

/-- Free-frame parameter vector assembled from the state, exactly the
<< pos, t, dir, q/p stream of StraightLineStepper.cpp. -/
def State.freeParameters (s : State) : FreeVector :=
  ![s.pos.x, s.pos.y, s.pos.z, s.t, s.dir.x, s.dir.y, s.dir.z, s.q / s.p]

/-- The consumed external Surface capability: local-global coordinate maps
and the Jacobian seeds at the surface. Context tokens are opaque and
elided; the maps themselves are opaque data of the surface object. -/
structure Surface where
  localToGlobal : ℝ → ℝ → Vec3
  globalToLocal : Vec3 → Vec3 → ℝ × ℝ
  initJacobianToGlobal : Vec3 → Vec3 → BoundVector → BoundToFreeMatrix
  initJacobianToLocal : Vec3 → Vec3 → FreeToBoundMatrix

/-- Azimuth angle of a direction vector (atan2 of y and x, in (-pi, pi]). -/
def dirPhi (v : Vec3) : ℝ := Complex.arg ⟨v.x, v.y⟩

/-- Polar angle of a direction vector, measured from the z axis. -/
def dirTheta (v : Vec3) : ℝ := Real.arccos (v.z / v.norm)

/-- Modelled from the spec: detail::coordinate_transformation's
boundParameters2freeParameters (the missing coordinate_transformations.hpp).
The two local coordinates go through the surface's local-to-global map to a
3D position, the azimuth/polar angle pair becomes a unit direction, and q/p
and time pass through unchanged. -/
def boundParameters2freeParameters (bp : BoundVector) (surface : Surface) : FreeVector :=
  let pos := surface.localToGlobal (bp 0) (bp 1)
  let dir : Vec3 :=
    ⟨Real.cos (bp 2) * Real.sin (bp 3), Real.sin (bp 2) * Real.sin (bp 3), Real.cos (bp 3)⟩
  ![pos.x, pos.y, pos.z, bp 5, dir.x, dir.y, dir.z, bp 4]

/-- Modelled from the spec: bound parameters recovered from a free vector
at a surface (used by the missing covariance engine to re-anchor the seed
Jacobian): local coordinates from the surface's global-to-local map, the
angles from the direction, q/p and time passed through. -/
def freeParameters2boundParameters (v : FreeVector) (surface : Surface) : BoundVector :=
  let pos := freePosition v
  let dir := freeDirection v
  let loc := surface.globalToLocal pos dir
  ![loc.1, loc.2, dirPhi dir, dirTheta dir, v 7, v 3]

/-- Modelled from the spec: the free-to-curvilinear projection of the
missing covariance engine, the inverse local map of the implicit frame
whose axes are derived from the direction. -/
def freeToCurvilinearJacobian (d : Vec3) : FreeToBoundMatrix :=
  let cosTheta := d.z
  let sinTheta := Real.sqrt (d.x ^ 2 + d.y ^ 2)
  let invSinTheta := 1 / sinTheta
  let cosPhi := d.x * invSinTheta
  let sinPhi := d.y * invSinTheta
  !![-sinPhi, cosPhi, 0, 0, 0, 0, 0, 0;
     -cosPhi * cosTheta, -sinPhi * cosTheta, sinTheta, 0, 0, 0, 0, 0;
     0, 0, 0, 0, -sinPhi * invSinTheta, cosPhi * invSinTheta, 0, 0;
     0, 0, 0, 0, 0, 0, -invSinTheta, 0;
     0, 0, 0, 0, 0, 0, 0, 1;
     0, 0, 0, 1, 0, 0, 0, 0]

/-- Modelled from the spec: the curvilinear seed Jacobian of the missing
covariance engine, the bound-to-free map of the implicit frame centered at
the current position with axes derived from the direction. -/
def curvilinearJacToGlobal (d : Vec3) : BoundToFreeMatrix :=
  let cosTheta := d.z
  let sinTheta := Real.sqrt (d.x ^ 2 + d.y ^ 2)
  let invSinTheta := 1 / sinTheta
  let cosPhi := d.x * invSinTheta
  let sinPhi := d.y * invSinTheta
  !![-sinPhi, -cosPhi * cosTheta, 0, 0, 0, 0;
     cosPhi, -sinPhi * cosTheta, 0, 0, 0, 0;
     0, sinTheta, 0, 0, 0, 0;
     0, 0, 0, 0, 0, 1;
     0, 0, -sinTheta * sinPhi, cosTheta * cosPhi, 0, 0;
     0, 0, sinTheta * cosPhi, cosTheta * sinPhi, 0, 0;
     0, 0, 0, -sinTheta, 0, 0;
     0, 0, 0, 0, 1, 0]

/-- Modelled from the spec: the curvilinear variant of
detail::covarianceTransport of the missing CovarianceEngine. It receives
exactly the state members the source passes by reference (cov, jacobian,
jacTransport, derivative, jacToGlobal) together with the direction: the
full Jacobian is the projection onto the curvilinear frame composed with
the transport and seed Jacobians; the covariance is chain-ruled with it;
afterwards the transport Jacobian and derivative are reset and the seed
Jacobian is re-anchored to the curvilinear frame. -/
def covarianceEngineTransportCurv (s : State) : State :=
  let jacFull : BoundMatrix :=
    freeToCurvilinearJacobian s.dir * (s.jacTransport * s.jacToGlobal)
  { s with
    cov := jacFull * s.cov * jacFull.transpose
    jacobian := jacFull * s.jacobian
    jacTransport := 1
    derivative := 0
    jacToGlobal := curvilinearJacToGlobal s.dir }

/-- Modelled from the spec: the surface variant of
detail::covarianceTransport of the missing CovarianceEngine, re-anchoring
to the given target surface instead of the curvilinear frame. -/
def covarianceEngineTransportSurface (s : State) (surface : Surface) : State :=
  let params := s.freeParameters
  let jacFull : BoundMatrix :=
    surface.initJacobianToLocal (freePosition params) (freeDirection params) *
      (s.jacTransport * s.jacToGlobal)
  { s with
    cov := jacFull * s.cov * jacFull.transpose
    jacobian := jacFull * s.jacobian
    jacTransport := 1
    derivative := 0
    jacToGlobal :=
      surface.initJacobianToGlobal (freePosition params) (freeDirection params)
        (freeParameters2boundParameters params surface) }

/-- Emitted bound/curvilinear parameters value object: the optional
transported covariance and the free-frame parameters it was built from. -/
structure ParametersSnapshot where
  cov : Option BoundSymMatrix
  parameters : FreeVector

namespace StraightLineStepper

/-- StraightLineStepper::update(state, parameters, covariance) from
StraightLineStepper.cpp: overwrites position, normalized direction,
momentum magnitude, time and covariance from the 8-component free vector. -/
def update (s : State) (parameters : FreeVector) (covariance : BoundSymMatrix) : State :=
  { s with
    pos := ⟨parameters 0, parameters 1, parameters 2⟩
    dir := Vec3.normalized ⟨parameters 4, parameters 5, parameters 6⟩
    p := |1 / parameters 7|
    t := parameters 3
    cov := covariance }

/-- StraightLineStepper::update(state, uposition, udirection, up, time)
from StraightLineStepper.cpp: overwrites the four kinematic fields with the
given values, storing the direction exactly as supplied. -/
def updateKinematics (s : State) (uposition udirection : Vec3) (up time : ℝ) : State :=
  { s with pos := uposition, dir := udirection, p := up, t := time }

/-- StraightLineStepper::covarianceTransport(state) from
StraightLineStepper.cpp: delegates to the covariance engine, anchored to
the curvilinear frame. The covTransport flag is not among the members the
source passes to the engine. -/
def covarianceTransport (s : State) : State := covarianceEngineTransportCurv s

/-- StraightLineStepper::covarianceTransport(state, surface) from
StraightLineStepper.cpp: delegates to the covariance engine with the state
free parameters, anchored to the given surface. -/
def covarianceTransportSurface (s : State) (surface : Surface) : State :=
  covarianceEngineTransportSurface s surface

/-- Modelled from the spec: the default navigation direction of resetState
(the missing stepper header declares navDir = forward). -/
def defaultNavDir : NavigationDirection := .forward

/-- Modelled from the spec: the default step size of resetState (the
missing stepper header declares it as the largest double). -/
def defaultStepSize : ℝ := doubleMax

/-- StraightLineStepper::resetState from StraightLineStepper.cpp: update
the stepping state from the bound parameters converted to the free frame
at the surface, set the navigation direction, step size and path length,
then reinitialize the stepping Jacobians at the surface. -/
def resetState (s : State) (boundParams : BoundVector) (cov : BoundSymMatrix)
    (surface : Surface) (navDir : NavigationDirection) (stepSize : ℝ) : State :=
  let s1 := update s (boundParameters2freeParameters boundParams surface) cov
  let s2 := { s1 with
    navDir := navDir
    stepSize := ConstrainedStep.ofValue stepSize
    pathAccumulated := 0 }
  { s2 with
    jacToGlobal := surface.initJacobianToGlobal s2.pos s2.dir boundParams
    jacobian := 1
    jacTransport := 1
    derivative := 0 }

/-- detail::boundState as called by StraightLineStepper::boundState: when
covariance bookkeeping is active the covariance is transported to the
surface frame first; the snapshot carries the free parameters captured
before the call, the (possibly updated) bound Jacobian and the accumulated
path; the mutated state members are returned alongside. Modelled from the
spec for the missing CovarianceEngine. -/
def boundState (s : State) (surface : Surface) :
    (ParametersSnapshot × BoundMatrix × ℝ) × State :=
  let params := s.freeParameters
  if s.covTransport then
    let s1 := covarianceEngineTransportSurface s surface
    ((⟨some s1.cov, params⟩, s1.jacobian, s1.pathAccumulated), s1)
  else
    ((⟨none, params⟩, s.jacobian, s.pathAccumulated), s)

/-- detail::curvilinearState as called by
StraightLineStepper::curvilinearState: the analogue of boundState anchored
to the implicit curvilinear frame. Modelled from the spec for the missing
CovarianceEngine. -/
def curvilinearState (s : State) : (ParametersSnapshot × BoundMatrix × ℝ) × State :=
  let params := s.freeParameters
  if s.covTransport then
    let s1 := covarianceEngineTransportCurv s
    ((⟨some s1.cov, params⟩, s1.jacobian, s1.pathAccumulated), s1)
  else
    ((⟨none, params⟩, s.jacobian, s.pathAccumulated), s)

/-- Modelled from the spec: setStepSize of the missing stepper header
records the previous effective step size, then overwrites the actor tier
(releasing it first). -/
def setStepSize (s : State) (stepSize : ℝ) : State :=
  { s with
    previousStepSize := s.stepSize.effective
    stepSize := s.stepSize.updateValue stepSize .actor true }

/-- Modelled from the spec: releaseStepSize of the missing stepper header
relaxes the actor tier of the active step size. -/
def releaseStepSize (s : State) : State :=
  { s with stepSize := s.stepSize.release .actor }

/-- Transport matrix of one straight-line step: identity, with the
position block sensitive to the direction by the step length and the time
component sensitive to q/p. Modelled from the spec for the missing step
implementation. -/
def stepTransportMatrix (h dtds mass q p : ℝ) : FreeMatrix :=
  Matrix.of fun i j =>
    if i = j then 1
    else if i = 0 ∧ j = 4 then h
    else if i = 1 ∧ j = 5 then h
    else if i = 2 ∧ j = 6 then h
    else if i = 3 ∧ j = 7 then h * mass ^ 2 * (if q = 0 then 1 else q) / (p * dtds)
    else 0

/-- Modelled from the spec: step of the missing stepper header. The
position moves along the direction by the effective signed step size
(exact constant-velocity motion), the time advances with the velocity
factor, the direction is left renormalized, the path length accumulates;
when covariance bookkeeping is active the transport Jacobian and the
derivative accumulate, otherwise they are untouched. Returns the advanced
state together with the achieved step length. -/
def step (mass : ℝ) (s : State) : State × ℝ :=
  let h := s.stepSize.effective
  let dtds := Real.sqrt (1 + (mass / s.p) ^ 2)
  let s1 := { s with
    pos := s.pos + h • s.dir
    dir := s.dir.normalized
    t := s.t + h * dtds
    pathAccumulated := s.pathAccumulated + h }
  if s.covTransport then
    ({ s1 with
        jacTransport := stepTransportMatrix h dtds mass s.q s.p * s.jacTransport
        derivative := fun i =>
          if i = 0 then s.dir.x
          else if i = 1 then s.dir.y
          else if i = 2 then s.dir.z
          else if i = 3 then dtds
          else s.derivative i }, h)
  else (s1, h)

end StraightLineStepper

/-- Index of the azimuth angle phi inside the bound parameter vector, the
only cyclic bound parameter. -/
def phiIndex : Fin 6 := 2

/-- Correction of a cyclic difference into the half-open interval
(-pi, pi]. Modelled from the spec for the missing ParameterSet header. -/
def wrapCyclic (d : ℝ) : ℝ := d - 2 * Real.pi * ⌈(d - Real.pi) / (2 * Real.pi)⌉

/-- Modelled from the spec: a ParameterSet over a declared subset of the
bound parameter space (the missing ParameterSet.hpp): the ordered index
map into the full space, the value vector and the optional covariance
(absent meaning uncertainty unknown). -/
structure ParameterSet (n : ℕ) where
  inds : Fin n → Fin 6
  values : Fin n → ℝ
  cov : Option (Matrix (Fin n) (Fin n) ℝ)

/-- Modelled from the spec: ParameterSet::residual against a full bound
parameter vector, the elementwise difference with the cyclic components
corrected into (-pi, pi]. -/
def ParameterSet.residual {n : ℕ} (ps : ParameterSet n) (other : Fin 6 → ℝ) :
    Fin n → ℝ := fun i =>
  if ps.inds i = phiIndex then wrapCyclic (ps.values i - other (ps.inds i))
  else ps.values i - other (ps.inds i)

/-- Modelled from the spec: ParameterSet equality is exact value
comparison of the projection (index map), the values and the optional
covariance, with no tolerance. -/
def ParameterSet.valueEq {n : ℕ} (ps qs : ParameterSet n) : Prop :=
  ps.inds = qs.inds ∧ ps.values = qs.values ∧ ps.cov = qs.cov

/-- A shared_ptr-held reference object: the address holding the object's
identity together with the pointee value. shared_ptr comparison compares
the stored address, never the pointee. -/
structure SharedRef (α : Type) where
  addr : ℕ
  obj : α

/-- Bound track parameters as consumed by Measurement::residual: the full
bound parameter vector of the snapshot (its covariance and surface play no
role in the residual). -/
structure BoundTrackParameters where
  fullValues : Fin 6 → ℝ

/-- The Measurement of Measurement.hpp: a ParameterSet, a shared reference
to the measuring surface and the source link. -/
structure Measurement (L : Type) (n : ℕ) where
  oParameters : ParameterSet n
  pReferenceObject : SharedRef Surface
  sourceLink : L

/-- Measurement::residual from Measurement.hpp: delegates to
ParameterSet::residual of the track parameters. -/
def Measurement.residual {L : Type} {n : ℕ} (m : Measurement L n)
    (trackPars : BoundTrackParameters) : Fin n → ℝ :=
  m.oParameters.residual trackPars.fullValues

/-- Measurement::operator== from Measurement.hpp: the parameter sets, the
shared reference objects (by stored address) and the source links all
compare equal. -/
def Measurement.eq {L : Type} {n : ℕ} (m1 m2 : Measurement L n) : Prop :=
  m1.oParameters.valueEq m2.oParameters ∧
    m1.pReferenceObject.addr = m2.pReferenceObject.addr ∧
    m1.sourceLink = m2.sourceLink

/-- A concrete surface with trivial maps, used to instantiate theorems on
closed inputs. -/
def trivialSurface : Surface where
  localToGlobal := fun _ _ => 0
  globalToLocal := fun _ _ => (0, 0)
  initJacobianToGlobal := fun _ _ _ => 0
  initJacobianToLocal := fun _ _ => 0

/-- A concrete stepper state mirroring the unit-test setup: backward
navigation, initial signed step size -123, tolerance 234, covariance
bookkeeping inactive, with a non-identity transport Jacobian. -/
def exampleState : State where
  pos := 0
  dir := ⟨1, 0, 0⟩
  p := 1
  q := -1
  t := 0
  navDir := .backward
  stepSize := ConstrainedStep.ofValue (-123)
  previousStepSize := 0
  tolerance := 234
  pathAccumulated := 0
  covTransport := false
  cov := 1
  jacobian := 1
  jacToGlobal := 0
  jacTransport := (2 : ℝ) • 1
  derivative := 0

/-- The same concrete state with covariance bookkeeping active. -/
def exampleStateCov : State := { exampleState with covTransport := true }

/-- A one-component parameter set declaring only the azimuth angle, with
value 3. -/
def examplePhiSet : ParameterSet 1 where
  inds := fun _ => phiIndex
  values := fun _ => 3
  cov := none

theorem Vec3.normSq_nonneg (v : Vec3) : 0 ≤ v.normSq := by
  unfold Vec3.normSq; positivity

theorem Vec3.normSq_eq_zero {v : Vec3} : v.normSq = 0 ↔ v = 0 := by
  unfold Vec3.normSq
  constructor
  · intro h
    have hx : v.x = 0 := by nlinarith [sq_nonneg v.x, sq_nonneg v.y, sq_nonneg v.z]
    have hy : v.y = 0 := by nlinarith [sq_nonneg v.x, sq_nonneg v.y, sq_nonneg v.z]
    have hz : v.z = 0 := by nlinarith [sq_nonneg v.x, sq_nonneg v.y, sq_nonneg v.z]
    exact Vec3.ext hx hy hz
  · intro h
    subst h
    show (0 : ℝ) ^ 2 + 0 ^ 2 + 0 ^ 2 = 0
    norm_num

theorem Vec3.norm_pos {v : Vec3} (h : v ≠ 0) : 0 < v.norm := by
  have hs : 0 < v.normSq :=
    lt_of_le_of_ne (Vec3.normSq_nonneg v) (fun e => h (Vec3.normSq_eq_zero.mp e.symm))
  exact Real.sqrt_pos.mpr hs

theorem Vec3.normSq_smul (c : ℝ) (v : Vec3) : (c • v).normSq = c ^ 2 * v.normSq := by
  show (c * v.x) ^ 2 + (c * v.y) ^ 2 + (c * v.z) ^ 2 = c ^ 2 * (v.x ^ 2 + v.y ^ 2 + v.z ^ 2)
  ring

theorem Vec3.norm_normalized {v : Vec3} (h : v ≠ 0) : v.normalized.norm = 1 := by
  have hpos := Vec3.norm_pos h
  have hne : v.norm ≠ 0 := ne_of_gt hpos
  unfold Vec3.normalized Vec3.norm
  rw [Vec3.normSq_smul]
  rw [Real.sqrt_mul (sq_nonneg _), Real.sqrt_sq_eq_abs]
  have hsq : Real.sqrt v.normSq = v.norm := rfl
  rw [hsq, abs_of_pos (by positivity : (0 : ℝ) < 1 / v.norm)]
  field_simp

theorem le_doubleMax_2048 : (2048 : ℝ) ≤ doubleMax := by
  have h1 : (2 : ℝ) ^ 971 ≤ 2 ^ 1023 := by
    exact pow_le_pow_right₀ one_le_two (by norm_num)
  have h2 : (2 : ℝ) ^ 11 ≤ 2 ^ 1023 := by
    exact pow_le_pow_right₀ one_le_two (by norm_num)
  have h3 : (2 : ℝ) ^ 1024 = 2 * 2 ^ 1023 := by ring
  have h4 : (2 : ℝ) ^ 11 = 2048 := by norm_num
  unfold doubleMax
  nlinarith

theorem freeMatrix_two_smul_ne_one : ((2 : ℝ) • (1 : FreeMatrix)) ≠ 1 := by
  intro h
  have h0 := congrFun (congrFun h 0) 0
  simp [Matrix.smul_apply, Matrix.one_apply] at h0

theorem constrainedStep_ofValue_neg {u : ℝ} (hu : u < 0) :
    ConstrainedStep.ofValue u =
      ⟨-doubleMax, -doubleMax, -doubleMax, u, .backward⟩ := by
  have hnd : ¬ 0 < u := by linarith
  simp [ConstrainedStep.ofValue, hnd, NavigationDirection.toReal]

theorem constrainedStep_ofValue_pos {u : ℝ} (hu : 0 < u) :
    ConstrainedStep.ofValue u = ⟨doubleMax, doubleMax, doubleMax, u, .forward⟩ := by
  simp [ConstrainedStep.ofValue, hu, NavigationDirection.toReal]

theorem effective_ofValue_neg {u : ℝ} (hu : u < 0) (hua : -doubleMax ≤ u) :
    (ConstrainedStep.ofValue u).effective = u := by
  rw [constrainedStep_ofValue_neg hu]
  show max (max (max (-doubleMax) (-doubleMax)) (-doubleMax)) u = u
  rw [max_self, max_self, max_eq_right hua]

theorem effective_ofValue_pos {u : ℝ} (hu : 0 < u) (hua : u ≤ doubleMax) :
    (ConstrainedStep.ofValue u).effective = u := by
  rw [constrainedStep_ofValue_pos hu]
  show min (min (min doubleMax doubleMax) doubleMax) u = u
  rw [min_self, min_self, min_eq_right hua]

theorem releases_after_update_neg {u v : ℝ} (hu : u < 0) (hua : -doubleMax ≤ u)
    (hva : |v| ≤ doubleMax) :
    (((ConstrainedStep.ofValue u).updateValue v .actor true).release .actor).effective
      = u := by
  have hvl : -doubleMax ≤ v := neg_le_of_abs_le hva
  have hvv : ¬ -doubleMax * -doubleMax < v * v := by
    rw [not_lt, neg_mul_neg]
    nlinarith [le_abs_self v, neg_abs_le v, abs_nonneg v]
  rw [constrainedStep_ofValue_neg hu]
  have e1 : (ConstrainedStep.release ⟨-doubleMax, -doubleMax, -doubleMax, u, .backward⟩
      .actor) = ⟨-doubleMax, -doubleMax, -doubleMax, u, .backward⟩ := by
    show ConstrainedStep.setValue _ _ _ = _
    rw [show ConstrainedStep.minValue ⟨-doubleMax, -doubleMax, -doubleMax, u, .backward⟩
        = -doubleMax by
      show min (min (min (-doubleMax) (-doubleMax)) (-doubleMax)) u = -doubleMax
      rw [min_self, min_self, min_eq_left hua]]
    rfl
  have e2 : (ConstrainedStep.updateValue ⟨-doubleMax, -doubleMax, -doubleMax, u, .backward⟩
      v .actor true) = ⟨-doubleMax, v, -doubleMax, u, .backward⟩ := by
    unfold ConstrainedStep.updateValue
    simp only [if_true]
    rw [e1]
    show ConstrainedStep.setValue _ _ _ = _
    rw [show ConstrainedStep.value ⟨-doubleMax, -doubleMax, -doubleMax, u, .backward⟩
        .actor = -doubleMax from rfl]
    rw [if_neg hvv]
    rfl
  rw [e2]
  have e3 : (ConstrainedStep.release ⟨-doubleMax, v, -doubleMax, u, .backward⟩ .actor)
      = ⟨-doubleMax, -doubleMax, -doubleMax, u, .backward⟩ := by
    show ConstrainedStep.setValue _ _ _ = _
    rw [show ConstrainedStep.minValue ⟨-doubleMax, v, -doubleMax, u, .backward⟩
        = -doubleMax by
      show min (min (min (-doubleMax) v) (-doubleMax)) u = -doubleMax
      rw [min_eq_left hvl, min_self, min_eq_left hua]]
    rfl
  rw [e3]
  show max (max (max (-doubleMax) (-doubleMax)) (-doubleMax)) u = u
  rw [max_self, max_self, max_eq_right hua]

theorem releases_after_update_pos {u v : ℝ} (hu : 0 < u) (hua : u ≤ doubleMax)
    (hva : |v| ≤ doubleMax) :
    (((ConstrainedStep.ofValue u).updateValue v .actor true).release .actor).effective
      = u := by
  have hvr : v ≤ doubleMax := le_of_abs_le hva
  have hvv : ¬ doubleMax * doubleMax < v * v := by
    rw [not_lt]
    nlinarith [le_abs_self v, neg_abs_le v, abs_nonneg v]
  rw [constrainedStep_ofValue_pos hu]
  have e1 : (ConstrainedStep.release ⟨doubleMax, doubleMax, doubleMax, u, .forward⟩
      .actor) = ⟨doubleMax, doubleMax, doubleMax, u, .forward⟩ := by
    show ConstrainedStep.setValue _ _ _ = _
    rw [show ConstrainedStep.maxValue ⟨doubleMax, doubleMax, doubleMax, u, .forward⟩
        = doubleMax by
      show max (max (max doubleMax doubleMax) doubleMax) u = doubleMax
      rw [max_self, max_self, max_eq_left hua]]
    rfl
  have e2 : (ConstrainedStep.updateValue ⟨doubleMax, doubleMax, doubleMax, u, .forward⟩
      v .actor true) = ⟨doubleMax, v, doubleMax, u, .forward⟩ := by
    unfold ConstrainedStep.updateValue
    simp only [if_true]
    rw [e1]
    show ConstrainedStep.setValue _ _ _ = _
    rw [show ConstrainedStep.value ⟨doubleMax, doubleMax, doubleMax, u, .forward⟩
        .actor = doubleMax from rfl]
    rw [if_neg hvv]
    rfl
  rw [e2]
  have e3 : (ConstrainedStep.release ⟨doubleMax, v, doubleMax, u, .forward⟩ .actor)
      = ⟨doubleMax, doubleMax, doubleMax, u, .forward⟩ := by
    show ConstrainedStep.setValue _ _ _ = _
    rw [show ConstrainedStep.maxValue ⟨doubleMax, v, doubleMax, u, .forward⟩
        = doubleMax by
      show max (max (max doubleMax v) doubleMax) u = doubleMax
      rw [max_eq_left hvr, max_self, max_eq_left hua]]
    rfl
  rw [e3]
  show min (min (min doubleMax doubleMax) doubleMax) u = u
  rw [min_self, min_self, min_eq_right hua]

theorem wrapCyclic_mem_Ioc (d : ℝ) :
    wrapCyclic d ∈ Set.Ioc (-Real.pi) Real.pi := by
  have hpi := Real.pi_pos
  have h2pi : 0 < 2 * Real.pi := by linarith
  set k : ℤ := ⌈(d - Real.pi) / (2 * Real.pi)⌉ with hk
  have hk1 : (d - Real.pi) / (2 * Real.pi) ≤ (k : ℝ) := Int.le_ceil _
  have hk2 : (k : ℝ) < (d - Real.pi) / (2 * Real.pi) + 1 := Int.ceil_lt_add_one _
  have e1 : d - Real.pi ≤ 2 * Real.pi * (k : ℝ) := by
    rw [div_le_iff₀ h2pi] at hk1
    linarith
  have e2 : 2 * Real.pi * (k : ℝ) < d + Real.pi := by
    have : ((k : ℝ) - 1) * (2 * Real.pi) < d - Real.pi := by
      rw [← lt_div_iff₀ h2pi]
      linarith
    linarith
  constructor
  · show -Real.pi < d - 2 * Real.pi * (k : ℝ)
    linarith
  · show d - 2 * Real.pi * (k : ℝ) ≤ Real.pi
    linarith

theorem wrapCyclic_six : wrapCyclic 6 = 6 - 2 * Real.pi := by
  have hpi3 := Real.pi_gt_three
  have hpi4 := Real.pi_lt_d2
  have h2pi : 0 < 2 * Real.pi := by linarith
  have hceil : ⌈((6 : ℝ) - Real.pi) / (2 * Real.pi)⌉ = 1 := by
    rw [Int.ceil_eq_iff]
    constructor
    · push_cast
      rw [lt_div_iff₀ h2pi]
      linarith
    · push_cast
      rw [div_le_iff₀ h2pi]
      linarith
  unfold wrapCyclic
  rw [hceil]
  norm_num

theorem anglesDirection_normSq (a b : ℝ) :
    Vec3.normSq ⟨Real.cos a * Real.sin b, Real.sin a * Real.sin b, Real.cos b⟩ = 1 := by
  have h1 := Real.sin_sq_add_cos_sq a
  have h2 := Real.sin_sq_add_cos_sq b
  show (Real.cos a * Real.sin b) ^ 2 + (Real.sin a * Real.sin b) ^ 2 + Real.cos b ^ 2 = 1
  nlinarith

theorem sqrt_four : Real.sqrt 4 = 2 := by
  rw [show (4 : ℝ) = 2 ^ 2 by norm_num, Real.sqrt_sq (by norm_num : (0 : ℝ) ≤ 2)]

/-- Claim C1: resetState converts the bound parameters to the free frame
via the coordinate transform at the surface, re-derives the seed Jacobian
(jacToGlobal) at that surface, and leaves the state with bound Jacobian =
Identity, transport Jacobian = Identity, derivative = 0 and accumulated
path length = 0; with the step size argument left at its default, the
resulting signed step size equals forward times the maximum representable
magnitude. -/
theorem claim1_resetState_reanchors (s : State) (bp : BoundVector)
    (c : BoundSymMatrix) (surf : Surface) (nd : NavigationDirection) (ss : ℝ) :
    (StraightLineStepper.resetState s bp c surf nd ss).pos =
        freePosition (boundParameters2freeParameters bp surf) ∧
    (StraightLineStepper.resetState s bp c surf nd ss).t =
        boundParameters2freeParameters bp surf 3 ∧
    (StraightLineStepper.resetState s bp c surf nd ss).dir =
        Vec3.normalized (freeDirection (boundParameters2freeParameters bp surf)) ∧
    (StraightLineStepper.resetState s bp c surf nd ss).p =
        |1 / boundParameters2freeParameters bp surf 7| ∧
    (StraightLineStepper.resetState s bp c surf nd ss).cov = c ∧
    (StraightLineStepper.resetState s bp c surf nd ss).jacToGlobal =
        surf.initJacobianToGlobal
          (freePosition (boundParameters2freeParameters bp surf))
          (Vec3.normalized (freeDirection (boundParameters2freeParameters bp surf))) bp ∧
    (StraightLineStepper.resetState s bp c surf nd ss).jacobian = 1 ∧
    (StraightLineStepper.resetState s bp c surf nd ss).jacTransport = 1 ∧
    (StraightLineStepper.resetState s bp c surf nd ss).derivative = 0 ∧
    (StraightLineStepper.resetState s bp c surf nd ss).pathAccumulated = 0 ∧
    (StraightLineStepper.resetState s bp c surf nd ss).navDir = nd ∧
    (StraightLineStepper.resetState s bp c surf nd
        StraightLineStepper.defaultStepSize).stepSize.effective =
      NavigationDirection.forward.toReal * doubleMax := by
  refine ⟨rfl, rfl, rfl, rfl, rfl, rfl, rfl, rfl, rfl, rfl, rfl, ?_⟩
  rw [show (StraightLineStepper.resetState s bp c surf nd
      StraightLineStepper.defaultStepSize).stepSize
      = ConstrainedStep.ofValue doubleMax from rfl]
  rw [effective_ofValue_pos doubleMax_pos le_rfl]
  show doubleMax = 1 * doubleMax
  rw [one_mul]

/-- Claim C6: the update overload taking a free vector and a covariance
overwrites position with the first three components, time with the time
component, direction with the normalized direction components, momentum
with the absolute inverse of q/p and covariance with the given matrix; the
overload without a covariance updates only the kinematic fields. -/
theorem claim6_update_overloads (s : State) (v : FreeVector) (c : BoundSymMatrix)
    (up ud : Vec3) (um ut : ℝ) :
    (StraightLineStepper.update s v c).pos = ⟨v 0, v 1, v 2⟩ ∧
    (StraightLineStepper.update s v c).t = v 3 ∧
    (StraightLineStepper.update s v c).dir = Vec3.normalized ⟨v 4, v 5, v 6⟩ ∧
    (StraightLineStepper.update s v c).p = |1 / v 7| ∧
    (StraightLineStepper.update s v c).cov = c ∧
    (StraightLineStepper.updateKinematics s up ud um ut).pos = up ∧
    (StraightLineStepper.updateKinematics s up ud um ut).dir = ud ∧
    (StraightLineStepper.updateKinematics s up ud um ut).p = um ∧
    (StraightLineStepper.updateKinematics s up ud um ut).t = ut ∧
    (StraightLineStepper.updateKinematics s up ud um ut).cov = s.cov ∧
    (StraightLineStepper.updateKinematics s up ud um ut).q = s.q ∧
    (StraightLineStepper.updateKinematics s up ud um ut).navDir = s.navDir ∧
    (StraightLineStepper.updateKinematics s up ud um ut).stepSize = s.stepSize ∧
    (StraightLineStepper.updateKinematics s up ud um ut).previousStepSize =
        s.previousStepSize ∧
    (StraightLineStepper.updateKinematics s up ud um ut).tolerance = s.tolerance ∧
    (StraightLineStepper.updateKinematics s up ud um ut).pathAccumulated =
        s.pathAccumulated ∧
    (StraightLineStepper.updateKinematics s up ud um ut).covTransport = s.covTransport ∧
    (StraightLineStepper.updateKinematics s up ud um ut).jacobian = s.jacobian ∧
    (StraightLineStepper.updateKinematics s up ud um ut).jacToGlobal = s.jacToGlobal ∧
    (StraightLineStepper.updateKinematics s up ud um ut).jacTransport = s.jacTransport ∧
    (StraightLineStepper.updateKinematics s up ud um ut).derivative = s.derivative :=
  ⟨rfl, rfl, rfl, rfl, rfl, rfl, rfl, rfl, rfl, rfl, rfl, rfl, rfl, rfl, rfl, rfl,
    rfl, rfl, rfl, rfl, rfl⟩

/-- Claim C9: the update overload taking a free vector and a covariance
leaves charge, navigation direction, step size, previous step size,
accumulated path length, tolerance, seed Jacobian, transport Jacobian and
derivative unchanged, whatever the sign of the q/p component of the free
vector. -/
theorem claim9_update_preserves_frame (s : State) (v : FreeVector)
    (c : BoundSymMatrix) :
    (StraightLineStepper.update s v c).q = s.q ∧
    (StraightLineStepper.update s v c).navDir = s.navDir ∧
    (StraightLineStepper.update s v c).stepSize = s.stepSize ∧
    (StraightLineStepper.update s v c).previousStepSize = s.previousStepSize ∧
    (StraightLineStepper.update s v c).pathAccumulated = s.pathAccumulated ∧
    (StraightLineStepper.update s v c).tolerance = s.tolerance ∧
    (StraightLineStepper.update s v c).jacToGlobal = s.jacToGlobal ∧
    (StraightLineStepper.update s v c).jacTransport = s.jacTransport ∧
    (StraightLineStepper.update s v c).derivative = s.derivative :=
  ⟨rfl, rfl, rfl, rfl, rfl, rfl, rfl, rfl, rfl⟩

/-- Claim C10: resetState leaves charge, previousStepSize and tolerance
(and the covariance-bookkeeping flag) unchanged for every argument
combination. -/
theorem claim10_resetState_preserves (s : State) (bp : BoundVector)
    (c : BoundSymMatrix) (surf : Surface) (nd : NavigationDirection) (ss : ℝ) :
    (StraightLineStepper.resetState s bp c surf nd ss).q = s.q ∧
    (StraightLineStepper.resetState s bp c surf nd ss).previousStepSize =
        s.previousStepSize ∧
    (StraightLineStepper.resetState s bp c surf nd ss).tolerance = s.tolerance ∧
    (StraightLineStepper.resetState s bp c surf nd ss).covTransport = s.covTransport :=
  ⟨rfl, rfl, rfl, rfl⟩

/-- Claim C3 counterexample: covarianceTransport is not a no-op on a state
whose covariance-bookkeeping flag is inactive; the flag is not even passed
to the engine, and the transport Jacobian is reset regardless. -/
theorem claim3_counterexample :
    exampleState.covTransport = false ∧
    StraightLineStepper.covarianceTransport exampleState ≠ exampleState := by
  refine ⟨rfl, ?_⟩
  intro h
  have hj : (1 : FreeMatrix) = (2 : ℝ) • 1 := congrArg State.jacTransport h
  exact freeMatrix_two_smul_ne_one hj.symm

/-- Claim C3 (amended): covarianceTransport, with or without a target
surface, applies the chain rule to the stored covariance using the full
Jacobian composed of the target-frame (curvilinear or surface) projection,
the transport Jacobian and the seed Jacobian, re-anchors the seed Jacobian
to the target frame, leaves transport Jacobian = Identity and derivative =
0 afterwards and leaves all other state fields unchanged; it applies the
transport unconditionally, with no covariance-bookkeeping gating of its
own. -/
theorem claim3_covarianceTransport_chain_rule (s : State) (surf : Surface) :
    (StraightLineStepper.covarianceTransport s).cov =
        (freeToCurvilinearJacobian s.dir * (s.jacTransport * s.jacToGlobal)) * s.cov *
          (freeToCurvilinearJacobian s.dir * (s.jacTransport * s.jacToGlobal)).transpose ∧
    (StraightLineStepper.covarianceTransport s).jacobian =
        (freeToCurvilinearJacobian s.dir * (s.jacTransport * s.jacToGlobal)) *
          s.jacobian ∧
    (StraightLineStepper.covarianceTransport s).jacTransport = 1 ∧
    (StraightLineStepper.covarianceTransport s).derivative = 0 ∧
    (StraightLineStepper.covarianceTransport s).jacToGlobal =
        curvilinearJacToGlobal s.dir ∧
    (StraightLineStepper.covarianceTransport s).pos = s.pos ∧
    (StraightLineStepper.covarianceTransport s).dir = s.dir ∧
    (StraightLineStepper.covarianceTransport s).p = s.p ∧
    (StraightLineStepper.covarianceTransport s).q = s.q ∧
    (StraightLineStepper.covarianceTransport s).t = s.t ∧
    (StraightLineStepper.covarianceTransport s).pathAccumulated = s.pathAccumulated ∧
    (StraightLineStepper.covarianceTransport s).stepSize = s.stepSize ∧
    (StraightLineStepper.covarianceTransport s).covTransport = s.covTransport ∧
    (StraightLineStepper.covarianceTransportSurface s surf).cov =
        (surf.initJacobianToLocal (freePosition s.freeParameters)
            (freeDirection s.freeParameters) * (s.jacTransport * s.jacToGlobal)) *
          s.cov *
          (surf.initJacobianToLocal (freePosition s.freeParameters)
              (freeDirection s.freeParameters) *
            (s.jacTransport * s.jacToGlobal)).transpose ∧
    (StraightLineStepper.covarianceTransportSurface s surf).jacTransport = 1 ∧
    (StraightLineStepper.covarianceTransportSurface s surf).derivative = 0 ∧
    (StraightLineStepper.covarianceTransportSurface s surf).jacToGlobal =
        surf.initJacobianToGlobal (freePosition s.freeParameters)
          (freeDirection s.freeParameters)
          (freeParameters2boundParameters s.freeParameters surf) ∧
    (StraightLineStepper.covarianceTransportSurface s surf).pos = s.pos ∧
    (StraightLineStepper.covarianceTransportSurface s surf).dir = s.dir ∧
    (StraightLineStepper.covarianceTransportSurface s surf).covTransport =
        s.covTransport :=
  ⟨rfl, rfl, rfl, rfl, rfl, rfl, rfl, rfl, rfl, rfl, rfl, rfl, rfl, rfl, rfl, rfl,
    rfl, rfl, rfl, rfl⟩

/-- Claim C4 counterexample: with covariance bookkeeping active,
curvilinearState does not leave the state unchanged; the transport
Jacobian is consumed. -/
theorem claim4_counterexample :
    (StraightLineStepper.curvilinearState exampleStateCov).2 ≠ exampleStateCov := by
  intro h
  have hj : (1 : FreeMatrix) = (2 : ℝ) • 1 := congrArg State.jacTransport h
  exact freeMatrix_two_smul_ne_one hj.symm

/-- Claim C4 (amended): boundState and curvilinearState emit a snapshot
(parameters, Jacobian, path length) while leaving the kinematic fields,
the path length, the step size, the navigation direction and the
covariance-bookkeeping flag unchanged; when covariance bookkeeping is
inactive the whole state is unchanged, and when it is active the snapshot
consumes the accumulated transport exactly as the covariance engine does
(covariance transported, transport Jacobian reset to Identity, derivative
to 0). -/
theorem claim4_snapshot_state_effect (s : State) (surf : Surface) :
    (s.covTransport = false →
      (StraightLineStepper.boundState s surf).2 = s ∧
      (StraightLineStepper.curvilinearState s).2 = s) ∧
    (s.covTransport = true →
      (StraightLineStepper.curvilinearState s).2 = covarianceEngineTransportCurv s ∧
      (StraightLineStepper.boundState s surf).2 =
          covarianceEngineTransportSurface s surf ∧
      (StraightLineStepper.curvilinearState s).2.jacTransport = 1 ∧
      (StraightLineStepper.curvilinearState s).2.derivative = 0 ∧
      (StraightLineStepper.boundState s surf).2.jacTransport = 1 ∧
      (StraightLineStepper.boundState s surf).2.derivative = 0) ∧
    (StraightLineStepper.curvilinearState s).2.pos = s.pos ∧
    (StraightLineStepper.curvilinearState s).2.dir = s.dir ∧
    (StraightLineStepper.curvilinearState s).2.p = s.p ∧
    (StraightLineStepper.curvilinearState s).2.q = s.q ∧
    (StraightLineStepper.curvilinearState s).2.t = s.t ∧
    (StraightLineStepper.curvilinearState s).2.pathAccumulated = s.pathAccumulated ∧
    (StraightLineStepper.curvilinearState s).2.stepSize = s.stepSize ∧
    (StraightLineStepper.curvilinearState s).2.navDir = s.navDir ∧
    (StraightLineStepper.curvilinearState s).2.covTransport = s.covTransport ∧
    (StraightLineStepper.boundState s surf).2.pos = s.pos ∧
    (StraightLineStepper.boundState s surf).2.dir = s.dir ∧
    (StraightLineStepper.boundState s surf).2.p = s.p ∧
    (StraightLineStepper.boundState s surf).2.q = s.q ∧
    (StraightLineStepper.boundState s surf).2.t = s.t ∧
    (StraightLineStepper.boundState s surf).2.pathAccumulated = s.pathAccumulated ∧
    (StraightLineStepper.boundState s surf).2.stepSize = s.stepSize ∧
    (StraightLineStepper.boundState s surf).2.navDir = s.navDir ∧
    (StraightLineStepper.boundState s surf).2.covTransport = s.covTransport ∧
    (StraightLineStepper.curvilinearState s).1.1.parameters = s.freeParameters ∧
    (StraightLineStepper.curvilinearState s).1.2.2 = s.pathAccumulated ∧
    (StraightLineStepper.boundState s surf).1.1.parameters = s.freeParameters ∧
    (StraightLineStepper.boundState s surf).1.2.2 = s.pathAccumulated := by
  cases hc : s.covTransport <;>
    simp [hc, StraightLineStepper.boundState, StraightLineStepper.curvilinearState,
      covarianceEngineTransportCurv, covarianceEngineTransportSurface]

/-- Claim C4 witness: the amended theorem applied to the concrete state
with inactive covariance bookkeeping. -/
theorem claim4_witness :
    exampleState.covTransport = false ∧
    (StraightLineStepper.curvilinearState exampleState).2 = exampleState :=
  ⟨rfl, ((claim4_snapshot_state_effect exampleState trivialSurface).1 rfl).2⟩

/-- Claim C2 counterexample: the kinematic update overload stores the
supplied direction unchanged, so a non-unit argument leaves a non-unit
stored direction. -/
theorem claim2_counterexample :
    (StraightLineStepper.updateKinematics exampleState 0 ⟨2, 0, 0⟩ 1 1).dir.norm ≠ 1 := by
  show Real.sqrt ((2 : ℝ) ^ 2 + 0 ^ 2 + 0 ^ 2) ≠ 1
  rw [show ((2 : ℝ) ^ 2 + 0 ^ 2 + 0 ^ 2) = 4 by norm_num, sqrt_four]
  norm_num

/-- Claim C2 (amended): the stored direction has unit norm after the
free-vector update whenever the direction components are nonzero, and
unconditionally after resetState; step leaves the direction renormalized,
hence unit-norm whenever the previous direction was nonzero; the
kinematic update overload stores the supplied direction exactly, so unit
norm there holds only when the caller passes a unit vector. -/
theorem claim2_direction_unit_norm :
    (∀ (s : State) (v : FreeVector) (c : BoundSymMatrix),
        (⟨v 4, v 5, v 6⟩ : Vec3) ≠ 0 →
        (StraightLineStepper.update s v c).dir.norm = 1) ∧
    (∀ (s : State) (bp : BoundVector) (c : BoundSymMatrix) (surf : Surface)
        (nd : NavigationDirection) (ss : ℝ),
        (StraightLineStepper.resetState s bp c surf nd ss).dir.norm = 1) ∧
    (∀ (mass : ℝ) (s : State),
        (StraightLineStepper.step mass s).1.dir = s.dir.normalized ∧
        (s.dir ≠ 0 → (StraightLineStepper.step mass s).1.dir.norm = 1)) ∧
    (∀ (s : State) (up ud : Vec3) (um ut : ℝ),
        (StraightLineStepper.updateKinematics s up ud um ut).dir = ud) := by
  refine ⟨?_, ?_, ?_, fun s up ud um ut => rfl⟩
  · intro s v c h
    exact Vec3.norm_normalized h
  · intro s bp c surf nd ss
    have hv : (⟨Real.cos (bp 2) * Real.sin (bp 3), Real.sin (bp 2) * Real.sin (bp 3),
        Real.cos (bp 3)⟩ : Vec3) ≠ 0 := by
      intro h0
      have h1 := anglesDirection_normSq (bp 2) (bp 3)
      rw [h0, Vec3.normSq_eq_zero.mpr rfl] at h1
      norm_num at h1
    show (Vec3.normalized ⟨Real.cos (bp 2) * Real.sin (bp 3),
        Real.sin (bp 2) * Real.sin (bp 3), Real.cos (bp 3)⟩).norm = 1
    exact Vec3.norm_normalized hv
  · intro mass s
    have hd : (StraightLineStepper.step mass s).1.dir = s.dir.normalized := by
      cases hc : s.covTransport <;> simp [StraightLineStepper.step, hc]
    refine ⟨hd, fun h => ?_⟩
    rw [hd]
    exact Vec3.norm_normalized h

/-- Claim C2 witness: the amended theorem applied at a concrete state and
free vector with nonzero direction components. -/
theorem claim2_witness :
    (StraightLineStepper.update exampleState ![0, 0, 0, 0, 0, 0, 3, 1] 1).dir.norm
      = 1 := by
  have hv : (⟨(0 : ℝ), 0, 3⟩ : Vec3) ≠ 0 := by
    intro h
    have h3 : (3 : ℝ) = 0 := congrArg Vec3.z h
    norm_num at h3
  exact claim2_direction_unit_norm.1 exampleState ![0, 0, 0, 0, 0, 0, 3, 1] 1 hv

/-- Claim C5 counterexample: on the unit-test state (backward navigation,
construction value -123), setStepSize 1337 followed by releaseStepSize
yields an effective step size of -123, the user-tier construction value,
not navDir times the unconstrained maximum magnitude. -/
theorem claim5_counterexample :
    (StraightLineStepper.releaseStepSize
        (StraightLineStepper.setStepSize exampleState 1337)).stepSize.effective
      = -123 ∧
    exampleState.navDir.toReal * doubleMax ≠ -123 := by
  have h2048 := le_doubleMax_2048
  constructor
  · show ((exampleState.stepSize.updateValue 1337 .actor true).release .actor).effective
        = -123
    rw [show exampleState.stepSize = ConstrainedStep.ofValue (-123) from rfl]
    refine releases_after_update_neg (by norm_num) ?_ ?_
    · show -doubleMax ≤ -123
      linarith
    · rw [abs_of_nonneg (by norm_num : (0 : ℝ) ≤ 1337)]
      linarith
  · show (-1 : ℝ) * doubleMax ≠ -123
    intro h
    linarith

/-- Claim C5 (amended): setStepSize records the previous effective step
size and overwrites the actor tier; releaseStepSize then discards only the
actor-tier constraint, so the resulting effective step size is the
tightest remaining bound, the user-tier value fixed at construction; it
equals navDir times the unconstrained maximum magnitude only when the
construction value itself was that bound. -/
theorem claim5_release_step_size (s : State) (u v : ℝ)
    (hs : s.stepSize = ConstrainedStep.ofValue u) (hua : |u| ≤ doubleMax)
    (hva : |v| ≤ doubleMax) :
    (u < 0 →
      (StraightLineStepper.releaseStepSize
          (StraightLineStepper.setStepSize s v)).stepSize.effective = u ∧
      (StraightLineStepper.setStepSize s v).previousStepSize = u) ∧
    (0 < u →
      (StraightLineStepper.releaseStepSize
          (StraightLineStepper.setStepSize s v)).stepSize.effective = u ∧
      (StraightLineStepper.setStepSize s v).previousStepSize = u) := by
  constructor
  · intro hu
    have hual : -doubleMax ≤ u := neg_le_of_abs_le hua
    constructor
    · show ((s.stepSize.updateValue v .actor true).release .actor).effective = u
      rw [hs]
      exact releases_after_update_neg hu hual hva
    · show s.stepSize.effective = u
      rw [hs]
      exact effective_ofValue_neg hu hual
  · intro hu
    have huar : u ≤ doubleMax := le_of_abs_le hua
    constructor
    · show ((s.stepSize.updateValue v .actor true).release .actor).effective = u
      rw [hs]
      exact releases_after_update_pos hu huar hva
    · show s.stepSize.effective = u
      rw [hs]
      exact effective_ofValue_pos hu huar

/-- Claim C5 witness: the amended theorem applied at the concrete test
state, construction value -123 and actor update 1337. -/
theorem claim5_witness :
    (StraightLineStepper.releaseStepSize
        (StraightLineStepper.setStepSize exampleState 1337)).stepSize.effective
      = -123 ∧
    (StraightLineStepper.setStepSize exampleState 1337).previousStepSize = -123 := by
  have h2048 := le_doubleMax_2048
  have h123 : |(-123 : ℝ)| ≤ doubleMax := by
    rw [abs_of_nonpos (by norm_num : (-123 : ℝ) ≤ 0)]
    linarith
  have h1337 : |(1337 : ℝ)| ≤ doubleMax := by
    rw [abs_of_nonneg (by norm_num : (0 : ℝ) ≤ 1337)]
    linarith
  exact (claim5_release_step_size exampleState (-123) 1337 rfl h123 h1337).1
    (by norm_num)

/-- Claim C7: the residual of cyclic (angular) components is corrected
into the half-open interval (-pi, pi], non-cyclic components subtract
plainly, Measurement::residual delegates to the elementwise computation,
and the residual of azimuth values 3 and -3 is 6 - 2 pi, of small
magnitude 2 pi - 6 rather than 6. -/
theorem claim7_residual_wraparound :
    (∀ (n : ℕ) (ps : ParameterSet n) (other : Fin 6 → ℝ) (i : Fin n),
        ps.inds i = phiIndex →
        ps.residual other i ∈ Set.Ioc (-Real.pi) Real.pi) ∧
    (∀ (n : ℕ) (ps : ParameterSet n) (other : Fin 6 → ℝ) (i : Fin n),
        ps.inds i ≠ phiIndex →
        ps.residual other i = ps.values i - other (ps.inds i)) ∧
    (∀ (L : Type) (n : ℕ) (m : Measurement L n) (tp : BoundTrackParameters),
        m.residual tp = m.oParameters.residual tp.fullValues) ∧
    examplePhiSet.residual (fun _ => -3) 0 = 6 - 2 * Real.pi ∧
    |6 - 2 * Real.pi| = 2 * Real.pi - 6 ∧
    2 * Real.pi - 6 < 3 / 10 ∧
    (2 * Real.pi - 6 : ℝ) ≠ 6 := by
  have hpi3 := Real.pi_gt_three
  have hpi4 := Real.pi_lt_d2
  refine ⟨?_, ?_, fun L n m tp => rfl, ?_, ?_, by linarith, by linarith⟩
  · intro n ps other i h
    unfold ParameterSet.residual
    rw [if_pos h]
    exact wrapCyclic_mem_Ioc _
  · intro n ps other i h
    unfold ParameterSet.residual
    rw [if_neg h]
  · show wrapCyclic ((3 : ℝ) - -3) = 6 - 2 * Real.pi
    rw [show ((3 : ℝ) - -3) = 6 by norm_num, wrapCyclic_six]
  · rw [abs_of_neg (by linarith : (6 : ℝ) - 2 * Real.pi < 0)]
    ring

/-- Claim C7 witness: the wraparound clause applied at the concrete
one-component azimuth parameter set. -/
theorem claim7_witness :
    examplePhiSet.residual (fun _ => -3) 0 ∈ Set.Ioc (-Real.pi) Real.pi :=
  claim7_residual_wraparound.1 1 examplePhiSet (fun _ => -3) 0 rfl

/-- Claim C8: Measurement equality holds exactly when the parameter sets
compare equal by exact value (projection, values and covariance), the
reference objects are the identical shared object (stored address, never
the pointee value) and the source links compare equal; identical addresses
suffice regardless of pointee values, and distinct addresses refute
equality even for value-equal pointees. -/
theorem claim8_measurement_equality :
    (∀ (L : Type) (n : ℕ) (m1 m2 : Measurement L n),
        Measurement.eq m1 m2 ↔
          (m1.oParameters.inds = m2.oParameters.inds ∧
           (∀ i, m1.oParameters.values i = m2.oParameters.values i) ∧
           m1.oParameters.cov = m2.oParameters.cov ∧
           m1.pReferenceObject.addr = m2.pReferenceObject.addr ∧
           m1.sourceLink = m2.sourceLink)) ∧
    (∀ (L : Type) (n : ℕ) (ps : ParameterSet n) (r1 r2 : SharedRef Surface) (l : L),
        r1.addr = r2.addr → Measurement.eq ⟨ps, r1, l⟩ ⟨ps, r2, l⟩) ∧
    (∀ (L : Type) (n : ℕ) (ps qs : ParameterSet n) (r1 r2 : SharedRef Surface)
        (l1 l2 : L), r1.obj = r2.obj → r1.addr ≠ r2.addr →
        ¬ Measurement.eq ⟨ps, r1, l1⟩ ⟨qs, r2, l2⟩) := by
  refine ⟨?_, ?_, ?_⟩
  · intro L n m1 m2
    constructor
    · rintro ⟨⟨h1, h2, h3⟩, h4, h5⟩
      exact ⟨h1, fun i => congrFun h2 i, h3, h4, h5⟩
    · rintro ⟨h1, h2, h3, h4, h5⟩
      exact ⟨⟨h1, funext h2, h3⟩, h4, h5⟩
  · intro L n ps r1 r2 l h
    exact ⟨⟨rfl, rfl, rfl⟩, h, rfl⟩
  · rintro L n ps qs r1 r2 l1 l2 _ hne ⟨_, ha, _⟩
    exact hne ha

/-- Claim C8 witness: the equality characterization applied at concrete
measurements sharing one reference object, and at measurements holding
value-equal reference objects stored at distinct addresses. -/
theorem claim8_witness :
    Measurement.eq (⟨examplePhiSet, ⟨0, trivialSurface⟩, 0⟩ : Measurement ℕ 1)
        ⟨examplePhiSet, ⟨0, trivialSurface⟩, 0⟩ ∧
    ¬ Measurement.eq (⟨examplePhiSet, ⟨0, trivialSurface⟩, 0⟩ : Measurement ℕ 1)
        ⟨examplePhiSet, ⟨1, trivialSurface⟩, 0⟩ :=
  ⟨claim8_measurement_equality.2.1 ℕ 1 examplePhiSet ⟨0, trivialSurface⟩
      ⟨0, trivialSurface⟩ 0 rfl,
   claim8_measurement_equality.2.2 ℕ 1 examplePhiSet examplePhiSet
      ⟨0, trivialSurface⟩ ⟨1, trivialSurface⟩ 0 0 rfl (by decide)⟩

end

end ActsSpec
